import Mathlib

/-!
Shallow embedding of the inference-and-decision pipeline of the
ai-smart-plant-pot repository.

Sources embedded here:
- src/predict_plant_tflite.py : confidence post-processing (temperature
  scaling, preferred-class boost, renormalization, top-5 ranking).
- src/Raspberry Pi/plant_bot.py : classify_image (dtype branch, top-3
  ranking) and the serial handlers status and water (reply decoding,
  stripping, and outcome classification).

Python floats are modelled by exact arithmetic: the rational numbers for
every stage that uses only field operations, and the real numbers for the
temperature stage, whose log and exp have no exact rational form.
-/

/- ### Generic list arithmetic helpers -/

/-- Sum of a list divided entrywise: the sum of `x / s` over `l` is `l.sum / s`. -/
lemma sum_map_div {α : Type} [DivisionRing α] (l : List α) (s : α) :
    (l.map (fun x => x / s)).sum = l.sum / s := by
  induction l with
  | nil => simp
  | cons a t ih => simp [ih, add_div]

/-- A list of nonnegative entries with at least one positive entry has positive sum. -/
lemma sum_pos_of_exists_pos {α : Type} [LinearOrderedField α] (l : List α)
    (hnn : ∀ x ∈ l, 0 ≤ x) (hex : ∃ x ∈ l, 0 < x) : 0 < l.sum := by
  induction l with
  | nil => rcases hex with ⟨x, hx, _⟩; cases hx
  | cons a t ih =>
    rcases hex with ⟨x, hx, hxpos⟩
    rcases List.mem_cons.mp hx with rfl | hxt
    · have ht : 0 ≤ t.sum := List.sum_nonneg (fun y hy => hnn y (List.mem_cons_of_mem _ hy))
      simpa using add_pos_of_pos_of_nonneg hxpos ht
    · have ha : 0 ≤ a := hnn a (List.mem_cons_self a t)
      have ht : 0 < t.sum :=
        ih (fun y hy => hnn y (List.mem_cons_of_mem _ hy)) ⟨x, hxt, hxpos⟩
      simpa using add_pos_of_nonneg_of_pos ha ht

/-- Filtering with a pointwise weaker predicate keeps at least as many elements. -/
lemma filter_length_mono {α : Type} (l : List α) (p q : α → Bool)
    (h : ∀ a ∈ l, p a = true → q a = true) :
    (l.filter p).length ≤ (l.filter q).length := by
  induction l with
  | nil => simp
  | cons a t ih =>
    have ih' := ih (fun b hb => h b (List.mem_cons_of_mem _ hb))
    by_cases hp : p a = true
    · have hq := h a (List.mem_cons_self a t) hp
      simp [List.filter_cons, hp, hq, Nat.succ_le_succ ih']
    · have hp' : p a = false := by revert hp; cases p a <;> simp
      by_cases hq : q a = true
      · simp [List.filter_cons, hp', hq]
        exact ih'.trans (Nat.le_succ _)
      · have hq' : q a = false := by revert hq; cases q a <;> simp
        simpa [List.filter_cons, hp', hq'] using ih'

/-- The entry at `i` of an entrywise division, with default `0`. -/
lemma getD_map_div {α : Type} [DivisionRing α] (v : List α) (s : α) (i : Nat) :
    (v.map (fun x => x / s)).getD i 0 = v.getD i 0 / s := by
  induction v generalizing i with
  | nil => simp
  | cons a t ih => cases i with
    | zero => simp
    | succ n => simpa using ih n

/-- Entries of a list are nonnegative at every index when all members are,
since the default is `0`. -/
lemma getD_nonneg {α : Type} [LinearOrderedField α] (v : List α)
    (hnn : ∀ x ∈ v, 0 ≤ x) (i : Nat) : 0 ≤ v.getD i 0 := by
  by_cases h : i < v.length
  · rw [List.getD_eq_getElem _ _ h]
    exact hnn _ (List.getElem_mem h)
  · rw [List.getD_eq_default _ _ (Nat.le_of_not_lt h)]

/- ### ASCII-level string model

The Python code compares strings after str.lower() and uses the
containment test `needle in hay`.  Both are modelled on the char lists
underlying Lean strings.  Lowering is modelled on the ASCII range, which
covers the label files and command strings of the repository. -/

/-- ASCII lowercase of one character, modelling str.lower() on the ASCII range. -/
def lowerChar (c : Char) : Char :=
  if 'A' ≤ c ∧ c ≤ 'Z' then Char.ofNat (c.toNat + 32) else c

/-- Lowercase of a char list. -/
def lowerStr (l : List Char) : List Char := l.map lowerChar

/-- Whether the first list is an initial segment of the second. -/
def leadsWith : List Char → List Char → Bool
  | [], _ => true
  | _ :: _, [] => false
  | n :: ns, h :: hs => (n == h) && leadsWith ns hs

/-- Whether `needle` occurs contiguously inside `hay`: the Python test
`needle in hay`. -/
def subOf (needle : List Char) : List Char → Bool
  | [] => leadsWith needle []
  | h :: t => leadsWith needle (h :: t) || subOf needle t

/- ### Confidence post-processor (predict_plant_tflite.py lines 68-94)

The pipeline after the forward pass is:
  line 68-71: temperature scaling, skipped when temp == 1.0;
  line 76-81: multiply each matching class by (1 + boost) when prefer is truthy;
  line 82:    unconditional renormalization by the vector sum;
  line 87-90: top-5 by np.argsort(output)[-5:][::-1].
The rational-number model below covers runs with temp == 1.0 (the block at
line 68 is skipped); the real-number model further down adds the
temperature stage. -/

/-- Renormalization by the vector sum: line 82 (and line 71 inside the
temperature block). -/
def renorm {α : Type} [DivisionRing α] (v : List α) : List α :=
  v.map (fun x => x / v.sum)

/-- One pass of the boost loop of lines 78-81, carried out from class index
`i`: each entry whose class label (lowercased) contains the lowercased
preferred substring `pl` is multiplied by `1 + boost`.  Classes beyond the
length of either list leave entries unchanged. -/
def boostFrom {α : Type} [Semiring α] (classes : List String) (pl : List Char)
    (boost : α) : Nat → List α → List α
  | _, [] => []
  | i, x :: xs =>
    (match classes.get? i with
      | some cls => if subOf pl (lowerStr cls.data) then x * (1 + boost) else x
      | none => x) :: boostFrom classes pl boost (i + 1) xs

/-- The boost block of lines 76-81: applied only when a preferred substring
is supplied and non-empty (Python truthiness of args.prefer). -/
def boostOpt {α : Type} [Semiring α] (classes : List String)
    (prefer : Option String) (boost : α) (v : List α) : List α :=
  match prefer with
  | none => v
  | some p => if p = "" then v else boostFrom classes (lowerStr p.data) boost 0 v

/-- The post-processing pipeline of lines 76-82 for runs with temp == 1.0
(the temperature block of line 68 is skipped at that value): optional boost
followed by the unconditional renormalization of line 82. -/
def postprocessNoTemp {α : Type} [DivisionRing α] (classes : List String)
    (prefer : Option String) (boost : α) (v : List α) : List α :=
  renorm (boostOpt classes prefer boost v)

/- ### Ranking (predict_plant_tflite.py lines 87-94, plant_bot.py lines 105-106)

np.argsort is modelled as a stable ascending sort of the index list, which
is equivalent to sorting indices by the lexicographic key (value, index).
numpy leaves the tie order of its default sort unspecified; the stable model
fixes it as ascending original index, matching the sorts numpy uses on the
small arrays involved here. -/

/-- The comparator of the stable ascending argsort: index `i` comes no later
than `j` when its value is smaller, or the values tie and `i ≤ j`. -/
def IdxLe (v : List ℚ) (i j : Nat) : Prop :=
  v.getD i 0 < v.getD j 0 ∨ (v.getD i 0 = v.getD j 0 ∧ i ≤ j)

instance (v : List ℚ) : DecidableRel (IdxLe v) := fun i j => by
  unfold IdxLe; infer_instance

/-- Model of np.argsort(v): index list sorted ascending by value, ties by
ascending index. -/
def argsortAsc (v : List ℚ) : List Nat :=
  List.insertionSort (IdxLe v) (List.range v.length)

/-- Model of np.argsort(v)[-k:][::-1]: the top-k class indices, by
descending value. -/
def topK (k : Nat) (v : List ℚ) : List Nat :=
  ((argsortAsc v).drop (v.length - k)).reverse

/-- The displayed predictions: pairs (label, value) along the top-k indices
(predict_plant_tflite.py lines 87-90, plant_bot.py lines 105-106). -/
def topPreds (k : Nat) (classes : List String) (v : List ℚ) :
    List (String × ℚ) :=
  (topK k v).map (fun i => (classes.getD i "", v.getD i 0))

/-- The comparator `IdxLe` is total. -/
lemma idxLe_total (v : List ℚ) : ∀ i j, IdxLe v i j ∨ IdxLe v j i := by
  intro i j
  rcases lt_trichotomy (v.getD i 0) (v.getD j 0) with h | h | h
  · exact Or.inl (Or.inl h)
  · rcases Nat.le_total i j with hij | hij
    · exact Or.inl (Or.inr ⟨h, hij⟩)
    · exact Or.inr (Or.inr ⟨h.symm, hij⟩)
  · exact Or.inr (Or.inl h)

/-- The comparator `IdxLe` is transitive. -/
lemma idxLe_trans (v : List ℚ) : ∀ a b c, IdxLe v a b → IdxLe v b c → IdxLe v a c := by
  intro a b c hab hbc
  rcases hab with h1 | ⟨e1, l1⟩
  · rcases hbc with h2 | ⟨e2, l2⟩
    · exact Or.inl (h1.trans h2)
    · exact Or.inl (e2 ▸ h1)
  · rcases hbc with h2 | ⟨e2, l2⟩
    · exact Or.inl (e1 ▸ h2)
    · exact Or.inr ⟨e1.trans e2, l1.trans l2⟩

/-- The argsort model returns a sorted index list. -/
lemma argsortAsc_sorted (v : List ℚ) : (argsortAsc v).Sorted (IdxLe v) := by
  haveI : IsTotal Nat (IdxLe v) := ⟨idxLe_total v⟩
  haveI : IsTrans Nat (IdxLe v) := ⟨fun a b c => idxLe_trans v a b c⟩
  exact List.sorted_insertionSort (IdxLe v) _

/-- The argsort model returns a permutation of the index range. -/
lemma argsortAsc_perm (v : List ℚ) :
    (argsortAsc v).Perm (List.range v.length) :=
  List.perm_insertionSort (IdxLe v) _

/-- The argsort model has no duplicate indices. -/
lemma argsortAsc_nodup (v : List ℚ) : (argsortAsc v).Nodup :=
  (argsortAsc_perm v).nodup_iff.mpr (List.nodup_range _)

/- ### Temperature stage (predict_plant_tflite.py lines 68-71)

The block runs only when temp differs from 1.0.  Its float arithmetic is
modelled over the real numbers, since log and exp have no exact rational
form.  A run through the full pipeline therefore lives over the reals. -/

/-- The temperature-scaling block of lines 68-71: skipped at temp 1.0;
otherwise each entry becomes exp(log(x + 1e-9) / temp) and the vector is
renormalized by the sum of these.  The value temp = 0 is a genuine error
path of the program: numpy turns logits / 0.0 into infinities and the
renormalized output into NaN, so the program output does not sum to 1
there.  Exact real arithmetic cannot express that failure (total division
would instead collapse the stage to a benign uniform renormalization), so
every theorem about this stage assumes a strictly positive temperature. -/
noncomputable def tempStage (temp : ℝ) (v : List ℝ) : List ℝ :=
  if temp = 1 then v
  else renorm (v.map (fun x => Real.exp (Real.log (x + 1 / 1000000000) / temp)))

/-- The full post-processing pipeline of lines 68-82 over the reals:
temperature stage, optional boost, and the unconditional renormalization
of line 82. -/
noncomputable def postprocessFull (classes : List String)
    (prefer : Option String) (boost temp : ℝ) (v : List ℝ) : List ℝ :=
  renorm (boostOpt classes prefer boost (tempStage temp v))

/- ### Device protocol client (plant_bot.py, handlers status and water)

The water handler (lines 170-187) reads the drained reply, decodes it with
errors="ignore", strips surrounding whitespace, and answers by three
branches: the acknowledgment marker, any other non-empty text, or silence.
The spec names these branches Acknowledged, UnrecognizedReply and Silence. -/

/-- The outcome variants of one serial exchange, as named by the spec: the
water handler reports them as "Watering complete", the echoed reply text,
and "Done (no serial response)" respectively. -/
inductive CommandOutcome where
  | Acknowledged (text : String)
  | UnrecognizedReply (text : String)
  | Silence
  deriving DecidableEq

/-- The acknowledgment test of line 182: the literal, case-sensitive
containment "ACK:PUMP_DONE" in reply. -/
def hasAck (t : String) : Bool :=
  subOf "ACK:PUMP_DONE".data t.data

/-- The branch structure of lines 182-187 applied to the stripped reply
text: marker present, else non-empty text, else silence. -/
def classifyReply (t : String) : CommandOutcome :=
  if hasAck t then CommandOutcome.Acknowledged t
  else if t ≠ "" then CommandOutcome.UnrecognizedReply t
  else CommandOutcome.Silence

/-- Whether a character is whitespace for Python str.strip(): the
characters for which str.isspace() holds. -/
def isPyWs (c : Char) : Bool :=
  (9 ≤ c.toNat && c.toNat ≤ 13) || (28 ≤ c.toNat && c.toNat ≤ 31) ||
  c.toNat = 32 || c.toNat = 133 || c.toNat = 160 || c.toNat = 5760 ||
  (8192 ≤ c.toNat && c.toNat ≤ 8202) || c.toNat = 8232 || c.toNat = 8233 ||
  c.toNat = 8239 || c.toNat = 8287 || c.toNat = 12288

/-- Leading and trailing whitespace removed from a char list. -/
def stripChars (l : List Char) : List Char :=
  ((l.dropWhile isPyWs).reverse.dropWhile isPyWs).reverse

/-- Model of Python str.strip() with no argument. -/
def pyStrip (s : String) : String := ⟨stripChars s.data⟩

/-- The water handler of lines 179-187 on the decoded raw reply: strip,
then classify into the three outcome branches. -/
def waterOutcome (rawDecoded : String) : CommandOutcome :=
  classifyReply (pyStrip rawDecoded)

/- ### Reply decoding (plant_bot.py lines 162 and 180)

Both handlers decode the drained bytes with bytes.decode(errors="ignore"),
which never raises and drops every maximal invalid subpart of the input.
The decoder below is the UTF-8 decoder with that error handler, on byte
values given as naturals below 256. -/

/-- Whether a byte is a UTF-8 continuation byte. -/
def contB (c : Nat) : Bool := 128 ≤ c && c ≤ 191

/-- Lower bound of the first continuation byte of a three-byte sequence. -/
def lo3 (b : Nat) : Nat := if b = 224 then 160 else 128

/-- Upper bound of the first continuation byte of a three-byte sequence. -/
def hi3 (b : Nat) : Nat := if b = 237 then 159 else 191

/-- Lower bound of the first continuation byte of a four-byte sequence. -/
def lo4 (b : Nat) : Nat := if b = 240 then 144 else 128

/-- Upper bound of the first continuation byte of a four-byte sequence. -/
def hi4 (b : Nat) : Nat := if b = 244 then 143 else 191

/-- Code point of a two-byte sequence. -/
def cp2 (b c : Nat) : Nat := (b - 192) * 64 + (c - 128)

/-- Code point of a three-byte sequence. -/
def cp3 (b c d : Nat) : Nat := (b - 224) * 4096 + (c - 128) * 64 + (d - 128)

/-- Code point of a four-byte sequence. -/
def cp4 (b c d e : Nat) : Nat :=
  (b - 240) * 262144 + (c - 128) * 4096 + (d - 128) * 64 + (e - 128)

/-- UTF-8 decoding with the "ignore" error handler: the code points of the
valid sequences, every maximal invalid subpart dropped, a truncated final
sequence dropped.  Total on every byte list: decoding never fails. -/
def utf8Ignore : List Nat → List Nat
  | [] => []
  | b :: r =>
    if b ≤ 127 then b :: utf8Ignore r
    else if 194 ≤ b ∧ b ≤ 223 then
      match r with
      | [] => []
      | c :: r2 => if contB c then cp2 b c :: utf8Ignore r2 else utf8Ignore (c :: r2)
    else if 224 ≤ b ∧ b ≤ 239 then
      match r with
      | [] => []
      | c :: r2 =>
        if lo3 b ≤ c ∧ c ≤ hi3 b then
          match r2 with
          | [] => []
          | d :: r3 => if contB d then cp3 b c d :: utf8Ignore r3 else utf8Ignore (d :: r3)
        else utf8Ignore (c :: r2)
    else if 240 ≤ b ∧ b ≤ 244 then
      match r with
      | [] => []
      | c :: r2 =>
        if lo4 b ≤ c ∧ c ≤ hi4 b then
          match r2 with
          | [] => []
          | d :: r3 =>
            if contB d then
              match r3 with
              | [] => []
              | e :: r4 =>
                if contB e then cp4 b c d e :: utf8Ignore r4 else utf8Ignore (e :: r4)
            else utf8Ignore (d :: r3)
        else utf8Ignore (c :: r2)
    else utf8Ignore r
termination_by l => l.length
decreasing_by all_goals (simp [List.length_cons]; try omega)

/-- The decoded reply text of a drained byte list. -/
def decodeIgnore (bs : List Nat) : String :=
  ⟨(utf8Ignore bs).map Char.ofNat⟩

/- ### Inference skeleton (predict_plant_tflite.py lines 42-63 and
plant_bot.py lines 82-103)

Both entry points resize the decoded image to a square before building the
input tensor: the script to the size declared by the model (line 42), the
bot to the constant 224 (line 84).  The script raises the unsupported-dtype
error at line 56; the bot branches only on uint8 and otherwise runs the
float path (lines 94-99).  The forward pass itself is opaque: a model
carries its output as a function of the tensor handed to set_tensor. -/

/-- The numpy dtypes a loaded model may declare for its input tensor. -/
inductive NpDtype where
  | uint8
  | float32
  | int8
  | float16
  | int32
  deriving DecidableEq

/-- Which preprocessing path built the input tensor. -/
inductive PrepKind where
  | quantized
  | floatNormalized
  deriving DecidableEq

/-- A decoded RGB image: spatial dimensions and an opaque content token. -/
structure ImageFile where
  width : Nat
  height : Nat
  content : Nat
  deriving DecidableEq

/-- The tensor handed to set_tensor: preprocessing path, spatial size, and
the content token it was built from. -/
structure Tensor where
  kind : PrepKind
  width : Nat
  height : Nat
  content : Nat
  deriving DecidableEq

/-- A loaded model: declared input size and dtype, and the forward pass as
an opaque function of the input tensor. -/
structure ModelHandle where
  inputSize : Nat
  inputDtype : NpDtype
  run : Tensor → List ℚ

/-- PIL resize to a square of side `s`: dimensions replaced, content kept
as the token of the source image. -/
def resizeTo (s : Nat) (img : ImageFile) : ImageFile :=
  ⟨s, s, img.content⟩

/-- The load-preprocess-invoke block of predict_plant_tflite.py lines 42-63:
resize to the declared input size, branch on the declared dtype, raise the
ValueError of line 56 on any other dtype, then run the forward pass. -/
def scriptInfer (m : ModelHandle) (img : ImageFile) :
    Except String (PrepKind × List ℚ) :=
  let resized := resizeTo m.inputSize img
  if m.inputDtype = NpDtype.float32 then
    Except.ok (PrepKind.floatNormalized,
      m.run ⟨PrepKind.floatNormalized, resized.width, resized.height, resized.content⟩)
  else if m.inputDtype = NpDtype.uint8 then
    Except.ok (PrepKind.quantized,
      m.run ⟨PrepKind.quantized, resized.width, resized.height, resized.content⟩)
  else Except.error "Unsupported input dtype"

/-- The classify_image function of plant_bot.py lines 82-111: resize to the
constant 224, branch on uint8 and otherwise take the float path with no
error case, run the forward pass, and return the preprocessing path taken
together with the top-3 predictions of lines 105-106. -/
def botClassify (classes : List String) (m : ModelHandle) (img : ImageFile) :
    PrepKind × List (String × ℚ) :=
  let resized := resizeTo 224 img
  let kind := if m.inputDtype = NpDtype.uint8 then PrepKind.quantized
    else PrepKind.floatNormalized
  let out := m.run ⟨kind, resized.width, resized.height, resized.content⟩
  (kind, topPreds 3 classes out)

/- ### Rank model for the boost claims -/

/-- Whether class index `k` matches the lowered preferred substring `pl`,
as tested by the loop of lines 78-79. -/
def matchesPL (classes : List String) (pl : List Char) (k : Nat) : Bool :=
  match classes.get? k with
  | some cls => subOf pl (lowerStr cls.data)
  | none => false

/-- Whether class index `k` matches the preferred substring `p`
(case-insensitive containment, lines 77-79). -/
def matchesPref (classes : List String) (p : String) (k : Nat) : Bool :=
  matchesPL classes (lowerStr p.data) k

/-- Whether index `j` is ranked ahead of index `i` in the descending
ranking: strictly larger value, or an exact tie with the larger original
index (the tie order produced by np.argsort(v)[::-1] under the stable
argsort model). -/
def aheadOf (v : List ℚ) (j i : Nat) : Bool :=
  decide (v.getD i 0 < v.getD j 0) || (decide (v.getD j 0 = v.getD i 0) && decide (i < j))

/-- The rank position of index `i` relative to the competitor indices `S`:
how many members of `S` are ranked ahead of `i`.  For a list sorted by
`aheadOf` this is exactly the position of `i` among the members of `S`. -/
def relRank (v : List ℚ) (S : List Nat) (i : Nat) : Nat :=
  (S.filter (fun j => aheadOf v j i)).length

/- ### Helper lemmas about the pipeline stages -/

/-- A boost factor of zero leaves the vector unchanged. -/
lemma boostFrom_zero {α : Type} [Semiring α] (classes : List String)
    (pl : List Char) (i : Nat) (xs : List α) :
    boostFrom classes pl (0 : α) i xs = xs := by
  induction xs generalizing i with
  | nil => rfl
  | cons x t ih =>
    simp only [boostFrom, ih]
    cases classes.get? i with
    | none => rfl
    | some cls => simp

/-- The boost block is the identity when no substring is given or the boost
factor is zero. -/
lemma boostOpt_id {α : Type} [Semiring α] (classes : List String)
    (prefer : Option String) (boost : α) (v : List α)
    (hid : prefer = none ∨ boost = 0) :
    boostOpt classes prefer boost v = v := by
  rcases hid with rfl | rfl
  · rfl
  · cases prefer with
    | none => rfl
    | some p =>
      by_cases hp : p = "" <;> simp [boostOpt, hp, boostFrom_zero]

/-- Dividing two entries by one positive constant preserves comparisons. -/
lemma div_eq_div_same_iff {α : Type} [LinearOrderedField α] (a b s : α)
    (hs : s ≠ 0) : a / s = b / s ↔ a = b := by
  constructor
  · intro h
    have := congrArg (fun x => x * s) h
    simpa [div_mul_cancel₀, hs] using this
  · intro h; rw [h]

/-- The argsort comparator is unchanged by renormalization with a positive
sum. -/
lemma idxLe_map_div (v : List ℚ) (s : ℚ) (hs : 0 < s) (i j : Nat) :
    IdxLe (v.map (fun x => x / s)) i j ↔ IdxLe v i j := by
  unfold IdxLe
  rw [getD_map_div, getD_map_div, div_lt_div_iff_of_pos_right hs,
    div_eq_div_same_iff _ _ _ hs.ne']

/-- Ordered insertion depends only on the truth table of the comparator. -/
lemma orderedInsert_congr (r s : Nat → Nat → Prop) [DecidableRel r]
    [DecidableRel s] (h : ∀ a b, r a b ↔ s a b) (a : Nat) (l : List Nat) :
    l.orderedInsert r a = l.orderedInsert s a := by
  induction l with
  | nil => rfl
  | cons b t ih =>
    simp only [List.orderedInsert]
    by_cases hr : r a b
    · rw [if_pos hr, if_pos ((h a b).mp hr)]
    · rw [if_neg hr, if_neg (fun hs2 => hr ((h a b).mpr hs2)), ih]

/-- Insertion sort depends only on the truth table of the comparator. -/
lemma insertionSort_congr (r s : Nat → Nat → Prop) [DecidableRel r]
    [DecidableRel s] (h : ∀ a b, r a b ↔ s a b) (l : List Nat) :
    l.insertionSort r = l.insertionSort s := by
  induction l with
  | nil => rfl
  | cons b t ih => simp only [List.insertionSort, ih, orderedInsert_congr r s h]

/-- Renormalization by a positive sum does not change the argsort. -/
lemma argsortAsc_map_div (v : List ℚ) (s : ℚ) (hs : 0 < s) :
    argsortAsc (v.map (fun x => x / s)) = argsortAsc v := by
  unfold argsortAsc
  rw [List.length_map]
  exact insertionSort_congr _ _ (fun a b => idxLe_map_div v s hs a b) _

/-- Renormalization by a positive sum does not change the top-k indices. -/
lemma topK_map_div (v : List ℚ) (s : ℚ) (hs : 0 < s) (k : Nat) :
    topK k (v.map (fun x => x / s)) = topK k v := by
  unfold topK
  rw [List.length_map, argsortAsc_map_div v s hs]

/-- The top-k index list is ordered by strictly descending value, with an
exact tie placing the larger original index first (reversal of the stable
ascending argsort). -/
lemma topK_pairwise (v : List ℚ) (k : Nat) :
    (topK k v).Pairwise
      (fun i j => v.getD j 0 < v.getD i 0 ∨ (v.getD i 0 = v.getD j 0 ∧ j < i)) := by
  have hsd : ((argsortAsc v).drop (v.length - k)).Pairwise (IdxLe v) :=
    (argsortAsc_sorted v).sublist (List.drop_sublist _ _)
  have hndd : ((argsortAsc v).drop (v.length - k)).Pairwise (fun a b => a ≠ b) :=
    (argsortAsc_nodup v).sublist (List.drop_sublist _ _)
  unfold topK
  rw [List.pairwise_reverse]
  refine (hsd.and hndd).imp ?_
  rintro a b ⟨hle, hne⟩
  rcases hle with hlt | ⟨heq, hab⟩
  · exact Or.inl hlt
  · exact Or.inr ⟨heq.symm, Nat.lt_of_le_of_ne hab hne⟩

/- ### Claims about the post-processor -/

/-- The claim C1 as stated is false: with temperature 1.0 and no preferred
substring the post-processor still renormalizes unconditionally (line 82),
so the input [1, 1] comes back as [1/2, 1/2], not unchanged. -/
theorem claim1_counterexample :
    postprocessNoTemp ["a", "b"] none ((1:ℚ)/4) [1, 1] = [1/2, 1/2] ∧
    postprocessNoTemp ["a", "b"] none ((1:ℚ)/4) [1, 1] ≠ [1, 1] := by
  constructor <;> norm_num [postprocessNoTemp, boostOpt, renorm]

/-- The claim C1 amended: with temperature 1.0 and no preferred substring
(or boost 0) the post-processor returns the input divided entrywise by its
sum, the unconditional renormalization of line 82.  The ranking is always
unchanged (for a nonnegative, not-all-zero input), and the values are
unchanged exactly when the input already sums to 1. -/
theorem claim1_amended (classes : List String) (prefer : Option String)
    (boost : ℚ) (v : List ℚ) (k : Nat)
    (hid : prefer = none ∨ boost = 0)
    (hnn : ∀ x ∈ v, 0 ≤ x) (hex : ∃ x ∈ v, 0 < x) :
    postprocessNoTemp classes prefer boost v = v.map (fun x => x / v.sum) ∧
    topK k (postprocessNoTemp classes prefer boost v) = topK k v ∧
    (v.sum = 1 → postprocessNoTemp classes prefer boost v = v) := by
  have hb : boostOpt classes prefer boost v = v := boostOpt_id _ _ _ _ hid
  have h1 : postprocessNoTemp classes prefer boost v = v.map (fun x => x / v.sum) := by
    unfold postprocessNoTemp renorm
    rw [hb]
  refine ⟨h1, ?_, ?_⟩
  · rw [h1]
    exact topK_map_div v v.sum (sum_pos_of_exists_pos v hnn hex) k
  · intro hsum
    rw [h1, hsum]
    simp

/-- A concrete run of the amended claim C1 at input [1/2, 1/4]. -/
theorem claim1_witness :
    postprocessNoTemp ["a"] none ((1:ℚ)/4) [1/2, 1/4] =
      ([1/2, 1/4] : List ℚ).map (fun x => x / ([1/2, 1/4] : List ℚ).sum) ∧
    topK 2 (postprocessNoTemp ["a"] none ((1:ℚ)/4) [1/2, 1/4]) =
      topK 2 [1/2, 1/4] ∧
    (([1/2, 1/4] : List ℚ).sum = 1 →
      postprocessNoTemp ["a"] none ((1:ℚ)/4) [1/2, 1/4] = [1/2, 1/4]) :=
  claim1_amended ["a"] none (1/4) [1/2, 1/4] 2 (Or.inl rfl)
    (by norm_num) ⟨1/2, by norm_num, by norm_num⟩

/-- The claim C3 as stated is false: on the vector [1/2, 1/2] the two
classes tie exactly, and the returned top-k sequence is [1, 0], so the
class with the larger original index appears first.  The slice reversal
np.argsort(v)[-5:][::-1] turns the ascending stable tie order around. -/
theorem claim3_counterexample :
    (([1/2, 1/2] : List ℚ).getD 0 0 = ([1/2, 1/2] : List ℚ).getD 1 0) ∧
    topK 5 [(1:ℚ)/2, 1/2] = [1, 0] := by
  constructor
  · norm_num
  · norm_num [topK, argsortAsc, IdxLe, List.insertionSort, List.orderedInsert,
      show List.range 2 = [0, 1] from rfl]

/-- The claim C3 amended: the ranking sorts classes by probability
descending, and whenever two classes have exactly equal probability the
class with the larger original index appears earlier in the returned top-k
sequence (the stable ascending argsort is sliced and reversed). -/
theorem claim3_amended (v : List ℚ) (k : Nat) :
    (topK k v).Pairwise
      (fun i j => v.getD j 0 < v.getD i 0 ∨ (v.getD i 0 = v.getD j 0 ∧ j < i)) :=
  topK_pairwise v k

/-- The claim C5 confirmed, on the concrete vector [0.7, 0.2, 0.1] with
labels rose, cactus, fern and temperature 1.0: with no boost the top-1
prediction is (rose, 0.7); with preferred substring cactus and boost 0.5
the pre-normalization vector is [0.7, 0.3, 0.1], the renormalized vector is
[7/11, 3/11, 1/11], each entry within 1/1000 of [0.636, 0.273, 0.091], and
the top-1 prediction is still rose. -/
theorem claim5_concrete :
    (topPreds 5 ["rose", "cactus", "fern"]
        (postprocessNoTemp ["rose", "cactus", "fern"] none ((1:ℚ)/4)
          [7/10, 2/10, 1/10])).head? = some ("rose", 7/10) ∧
    boostOpt ["rose", "cactus", "fern"] (some "cactus") ((1:ℚ)/2)
        [7/10, 2/10, 1/10] = [7/10, 3/10, 1/10] ∧
    postprocessNoTemp ["rose", "cactus", "fern"] (some "cactus") ((1:ℚ)/2)
        [7/10, 2/10, 1/10] = [7/11, 3/11, 1/11] ∧
    |(7:ℚ)/11 - 636/1000| ≤ 1/1000 ∧
    |(3:ℚ)/11 - 273/1000| ≤ 1/1000 ∧
    |(1:ℚ)/11 - 91/1000| ≤ 1/1000 ∧
    (topPreds 5 ["rose", "cactus", "fern"]
        (postprocessNoTemp ["rose", "cactus", "fern"] (some "cactus") ((1:ℚ)/2)
          [7/10, 2/10, 1/10])).head? = some ("rose", 7/11) := by
  have m0 : subOf (lowerStr "cactus".data) (lowerStr "rose".data) = false := by decide
  have m1 : subOf (lowerStr "cactus".data) (lowerStr "cactus".data) = true := by decide
  have m2 : subOf (lowerStr "cactus".data) (lowerStr "fern".data) = false := by decide
  have hp : ¬("cactus" = "") := by decide
  refine ⟨?_, ?_, ?_, by norm_num [abs_le], by norm_num [abs_le], by norm_num [abs_le], ?_⟩
  · norm_num [postprocessNoTemp, boostOpt, renorm, topPreds, topK, argsortAsc, IdxLe,
      List.insertionSort, List.orderedInsert, show List.range 3 = [0, 1, 2] from rfl]
  · norm_num [boostOpt, boostFrom, m0, m1, m2, hp]
  · norm_num [postprocessNoTemp, boostOpt, boostFrom, renorm, m0, m1, m2, hp]
  · norm_num [postprocessNoTemp, boostOpt, boostFrom, renorm, m0, m1, m2, hp,
      topPreds, topK, argsortAsc, IdxLe,
      List.insertionSort, List.orderedInsert, show List.range 3 = [0, 1, 2] from rfl]

/-- Entrywise description of the boost loop: the entry of class `i0 + n`
is multiplied by `1 + b` exactly when that class matches. -/
lemma boostFrom_getD (classes : List String) (pl : List Char) (b : ℚ)
    (i0 : Nat) (xs : List ℚ) (n : Nat) :
    (boostFrom classes pl b i0 xs).getD n 0 =
      if matchesPL classes pl (i0 + n) then xs.getD n 0 * (1 + b)
      else xs.getD n 0 := by
  induction xs generalizing i0 n with
  | nil => simp [boostFrom]
  | cons x t ih =>
    cases n with
    | zero =>
      simp only [boostFrom, Nat.add_zero, List.getD_cons_zero, matchesPL]
      cases classes.get? i0 with
      | none => simp
      | some cls => by_cases h : subOf pl (lowerStr cls.data) <;> simp [h]
    | succ m =>
      simp only [boostFrom, List.getD_cons_succ]
      rw [ih (i0 + 1) m]
      have harith : i0 + 1 + m = i0 + (m + 1) := by omega
      rw [harith]

/-- Entrywise description of the boost block with a non-empty preferred
substring. -/
lemma boostOpt_getD (classes : List String) (p : String) (b : ℚ) (v : List ℚ)
    (hp : p ≠ "") (n : Nat) :
    (boostOpt classes (some p) b v).getD n 0 =
      if matchesPref classes p n then v.getD n 0 * (1 + b)
      else v.getD n 0 := by
  simp only [boostOpt, if_neg hp]
  rw [boostFrom_getD]
  simp [matchesPref]

/-- The ahead-of relation is irreflexive. -/
lemma aheadOf_irrefl (v : List ℚ) (a : Nat) : aheadOf v a a = false := by
  simp [aheadOf]

/-- The ahead-of relation is asymmetric. -/
lemma aheadOf_asymm (v : List ℚ) (a b : Nat) (h : aheadOf v a b = true) :
    aheadOf v b a = false := by
  simp only [aheadOf, Bool.or_eq_true, Bool.and_eq_true, decide_eq_true_eq] at h
  simp only [aheadOf, Bool.or_eq_false_iff, Bool.and_eq_false_iff,
    decide_eq_false_iff_not]
  rcases h with hlt | ⟨heq, hab⟩
  · refine ⟨not_lt_of_lt hlt, Or.inl ?_⟩
    intro he
    rw [he] at hlt
    exact lt_irrefl _ hlt
  · refine ⟨?_, Or.inr (Nat.lt_asymm hab)⟩
    intro hlt2
    rw [heq] at hlt2
    exact lt_irrefl _ hlt2

/-- In a list sorted by a strict order, the position of a member equals the
number of listed elements ordered ahead of it: the count-based rank below
is the positional rank of the displayed ranking. -/
lemma position_eq_count_ahead (R : Nat → Nat → Bool) (l : List Nat)
    (hasym : ∀ a b, R a b = true → R b a = false) (hirr : ∀ a, R a a = false)
    (hl : l.Pairwise (fun a b => R a b = true)) (i : Nat) (hi : i ∈ l) :
    (l.takeWhile (fun j => j != i)).length = (l.filter (fun j => R j i)).length := by
  induction l with
  | nil => cases hi
  | cons x t ih =>
    rcases List.pairwise_cons.mp hl with ⟨hx, ht⟩
    by_cases hxi : x = i
    · subst hxi
      have h1 : List.takeWhile (fun j => j != x) (x :: t) = [] := by
        simp [List.takeWhile_cons]
      have h2 : List.filter (fun j => R j x) (x :: t) = [] := by
        rw [List.filter_eq_nil_iff]
        intro a ha
        rcases List.mem_cons.mp ha with rfl | hat
        · simp [hirr a]
        · simp [hasym x a (hx a hat)]
      rw [h1, h2]
    · rcases List.mem_cons.mp hi with rfl | hit
      · exact absurd rfl hxi
      have h1 : List.takeWhile (fun j => j != i) (x :: t) =
          x :: List.takeWhile (fun j => j != i) t := by
        simp [List.takeWhile_cons, hxi]
      have h2 : List.filter (fun j => R j i) (x :: t) =
          x :: List.filter (fun j => R j i) t := by
        rw [List.filter_cons, if_pos (by simp [hx i hit])]
      rw [h1, h2]
      simpa using ih ht hit

/-- The full descending ranking is a permutation of the class indices. -/
lemma topK_full_perm (v : List ℚ) :
    (topK v.length v).Perm (List.range v.length) := by
  unfold topK
  rw [Nat.sub_self, List.drop_zero]
  exact (List.reverse_perm _).trans (argsortAsc_perm v)

/-- The full descending ranking is sorted by the ahead-of relation. -/
lemma topK_pairwise_aheadOf (v : List ℚ) (k : Nat) :
    (topK k v).Pairwise (fun a b => aheadOf v a b = true) := by
  refine (topK_pairwise v k).imp ?_
  intro a b h
  simpa [aheadOf, Bool.or_eq_true, Bool.and_eq_true, decide_eq_true_eq] using h

/-- The position of class `i` in the full descending ranking equals its
count-based rank among all class indices. -/
lemma topK_position_eq_relRank (v : List ℚ) (i : Nat)
    (hi : i ∈ topK v.length v) :
    ((topK v.length v).takeWhile (fun j => j != i)).length =
      relRank v (List.range v.length) i := by
  rw [position_eq_count_ahead (fun a b => aheadOf v a b) _
    (aheadOf_asymm v) (aheadOf_irrefl v) (topK_pairwise_aheadOf v _) i hi]
  exact ((topK_full_perm v).filter _).length_eq

/-- The claim C4 as stated is false: on [0.9, 0.2] with labels rose and
cactus, preferred substring cactus and boost 0.5, the matching class 1 is
not at rank 0 before the boost, yet its rank relative to the non-matching
class 0 is 1 both before and after the boost (0.3 does not overtake 0.9):
the boost does not strictly improve its relative rank position. -/
theorem claim4_counterexample :
    matchesPref ["rose", "cactus"] "cactus" 1 = true ∧
    matchesPref ["rose", "cactus"] "cactus" 0 = false ∧
    relRank [(9:ℚ)/10, 1/5] (List.range 2) 1 = 1 ∧
    boostOpt ["rose", "cactus"] (some "cactus") ((1:ℚ)/2) [9/10, 1/5] = [9/10, 3/10] ∧
    relRank [(9:ℚ)/10, 3/10] [0] 1 = 1 ∧
    relRank [(9:ℚ)/10, 1/5] [0] 1 = 1 ∧
    ¬ relRank [(9:ℚ)/10, 3/10] [0] 1 < relRank [(9:ℚ)/10, 1/5] [0] 1 := by
  have m0 : subOf (lowerStr "cactus".data) (lowerStr "rose".data) = false := by decide
  have m1 : subOf (lowerStr "cactus".data) (lowerStr "cactus".data) = true := by decide
  have hp : ¬("cactus" = "") := by decide
  refine ⟨by decide, by decide, ?_, ?_, ?_, ?_, ?_⟩
  · norm_num [relRank, aheadOf, List.filter_cons, show List.range 2 = [0, 1] from rfl]
  · norm_num [boostOpt, boostFrom, m0, m1, hp]
  · norm_num [relRank, aheadOf, List.filter_cons]
  · norm_num [relRank, aheadOf, List.filter_cons]
  · have h1 : relRank [(9:ℚ)/10, 3/10] [0] 1 = 1 := by
      norm_num [relRank, aheadOf, List.filter_cons]
    have h2 : relRank [(9:ℚ)/10, 1/5] [0] 1 = 1 := by
      norm_num [relRank, aheadOf, List.filter_cons]
    rw [h1, h2]
    exact lt_irrefl 1

/-- The claim C4 amended: with a positive boost and a nonnegative input
vector, a class matching the preferred substring never occupies a worse
rank position relative to the non-matching classes after the boost stage
than before it (its probability can only gain on every non-matching class;
a strict gain of rank position happens only when the boost suffices to
overtake). -/
theorem claim4_amended (classes : List String) (p : String) (boost : ℚ)
    (v : List ℚ) (S : List Nat) (i : Nat)
    (hnn : ∀ x ∈ v, 0 ≤ x) (hb : 0 < boost)
    (hm : matchesPref classes p i = true)
    (hS : ∀ j ∈ S, matchesPref classes p j = false) :
    relRank (boostOpt classes (some p) boost v) S i ≤ relRank v S i := by
  by_cases hp : p = ""
  · subst hp
    simp [boostOpt]
  · unfold relRank
    apply filter_length_mono
    intro j hj hja
    have hwi : (boostOpt classes (some p) boost v).getD i 0 =
        v.getD i 0 * (1 + boost) := by
      rw [boostOpt_getD classes p boost v hp i, if_pos hm]
    have hwj : (boostOpt classes (some p) boost v).getD j 0 = v.getD j 0 := by
      rw [boostOpt_getD classes p boost v hp j, if_neg (by simp [hS j hj])]
    simp only [aheadOf, Bool.or_eq_true, Bool.and_eq_true, decide_eq_true_eq]
      at hja ⊢
    rw [hwi, hwj] at hja
    have hvi : 0 ≤ v.getD i 0 := getD_nonneg v hnn i
    have h1b : (1:ℚ) ≤ 1 + boost := by linarith
    rcases hja with hlt | ⟨heq, hij⟩
    · exact Or.inl (lt_of_le_of_lt (le_mul_of_one_le_right hvi h1b) hlt)
    · rcases eq_or_lt_of_le hvi with hz | hpos
      · refine Or.inr ⟨?_, hij⟩
        rw [heq, ← hz, zero_mul]
      · refine Or.inl ?_
        rw [heq]
        nlinarith

/-- A concrete run of the amended claim C4: the rank of the boosted cactus
class relative to the non-matching rose class does not get worse. -/
theorem claim4_witness :
    relRank (boostOpt ["rose", "cactus"] (some "cactus") ((1:ℚ)/2) [9/10, 1/5])
        [0] 1 ≤ relRank [(9:ℚ)/10, 1/5] [0] 1 :=
  claim4_amended ["rose", "cactus"] "cactus" (1/2) [9/10, 1/5] [0] 1
    (by norm_num) (by norm_num) (by decide) (by decide)

/- ### Claim C2: the full vector sums to 1 after any stage combination -/

/-- Renormalization produces a vector summing to exactly 1 whenever the
input sum is nonzero. -/
lemma renorm_sum {α : Type} [DivisionRing α] (v : List α) (h : v.sum ≠ 0) :
    (renorm v).sum = 1 := by
  unfold renorm
  rw [sum_map_div, div_self h]

/-- The boost loop keeps entries nonnegative when the multiplier is
positive. -/
lemma boostFrom_nonneg {α : Type} [LinearOrderedField α] (classes : List String)
    (pl : List Char) (b : α) (hb : 0 < 1 + b) (i : Nat) (xs : List α)
    (hnn : ∀ x ∈ xs, 0 ≤ x) :
    ∀ y ∈ boostFrom classes pl b i xs, 0 ≤ y := by
  induction xs generalizing i with
  | nil => simp [boostFrom]
  | cons x t ih =>
    intro y hy
    have hx : 0 ≤ x := hnn x (List.mem_cons_self x t)
    rcases List.mem_cons.mp hy with rfl | hyt
    · cases hcl : classes.get? i with
      | none => simpa [hcl] using hx
      | some cls =>
        by_cases hs : subOf pl (lowerStr cls.data)
        · simpa [hcl, hs] using mul_nonneg hx hb.le
        · simpa [hcl, hs] using hx
    · exact ih (i + 1) (fun z hz => hnn z (List.mem_cons_of_mem _ hz)) y hyt

/-- The boost loop keeps some entry positive when the multiplier is
positive. -/
lemma boostFrom_ex_pos {α : Type} [LinearOrderedField α] (classes : List String)
    (pl : List Char) (b : α) (hb : 0 < 1 + b) (i : Nat) (xs : List α)
    (hex : ∃ x ∈ xs, 0 < x) :
    ∃ y ∈ boostFrom classes pl b i xs, 0 < y := by
  induction xs generalizing i with
  | nil => rcases hex with ⟨x, hx, _⟩; cases hx
  | cons x t ih =>
    rcases hex with ⟨z, hz, hzpos⟩
    rcases List.mem_cons.mp hz with rfl | hzt
    · have hpos : 0 < (match classes.get? i with
        | some cls => if subOf pl (lowerStr cls.data) then z * (1 + b) else z
        | none => z) := by
        cases hcl : classes.get? i with
        | none => simpa using hzpos
        | some cls =>
          by_cases hs : subOf pl (lowerStr cls.data)
          · simpa [hs] using mul_pos hzpos hb
          · simpa [hs] using hzpos
      exact ⟨_, List.mem_cons_self _ _, hpos⟩
    · rcases ih (i + 1) ⟨z, hzt, hzpos⟩ with ⟨y, hy, hyp⟩
      exact ⟨y, List.mem_cons_of_mem _ hy, hyp⟩

/-- The boost block keeps entries nonnegative when the multiplier is
positive. -/
lemma boostOpt_nonneg {α : Type} [LinearOrderedField α] (classes : List String)
    (prefer : Option String) (b : α) (v : List α) (hb : 0 < 1 + b)
    (hnn : ∀ x ∈ v, 0 ≤ x) :
    ∀ y ∈ boostOpt classes prefer b v, 0 ≤ y := by
  cases prefer with
  | none => exact hnn
  | some p =>
    by_cases hp : p = ""
    · simpa [boostOpt, hp] using hnn
    · simp only [boostOpt, if_neg hp]
      exact boostFrom_nonneg classes _ b hb 0 v hnn

/-- The boost block keeps some entry positive when the multiplier is
positive. -/
lemma boostOpt_ex_pos {α : Type} [LinearOrderedField α] (classes : List String)
    (prefer : Option String) (b : α) (v : List α) (hb : 0 < 1 + b)
    (hex : ∃ x ∈ v, 0 < x) :
    ∃ y ∈ boostOpt classes prefer b v, 0 < y := by
  cases prefer with
  | none => exact hex
  | some p =>
    by_cases hp : p = ""
    · simpa [boostOpt, hp] using hex
    · simp only [boostOpt, if_neg hp]
      exact boostFrom_ex_pos classes _ b hb 0 v hex

/-- The claim C2 as stated is false at the unrestricted boost factor -1:
with labels [cactus], preferred substring cactus, boost -1, temperature 1
and input [1], the boost zeroes the whole vector, the renormalization of
line 82 divides zero by zero, and the result sums to 0, not 1. -/
theorem claim2_counterexample :
    postprocessFull ["cactus"] (some "cactus") (-1) 1 [1] = [0] ∧
    (postprocessFull ["cactus"] (some "cactus") (-1) 1 [1]).sum ≠ 1 := by
  have h1 : tempStage 1 [1] = [1] := by simp [tempStage]
  have m1 : subOf (lowerStr "cactus".data) (lowerStr "cactus".data) = true := by decide
  have hp : ¬("cactus" = "") := by decide
  have h2 : boostOpt ["cactus"] (some "cactus") (-1 : ℝ) [1] = [0] := by
    norm_num [boostOpt, boostFrom, m1, hp]
  have h3 : postprocessFull ["cactus"] (some "cactus") (-1) 1 [1] = [0] := by
    unfold postprocessFull
    rw [h1, h2]
    norm_num [renorm]
  refine ⟨h3, ?_⟩
  rw [h3]
  norm_num

/-- The claim C2 amended: for every nonnegative, not-all-zero input vector,
every temperature strictly greater than 0 and every boost factor above -1
(in particular the default 0.25 and every nonnegative boost), the fully
post-processed vector sums to exactly 1 in the exact real-number model,
whichever combination of the temperature and boost stages runs.  The two
excluded boundary values are genuine failure modes of the program: at
boost = -1 (the counterexample) line 82 divides zero by zero, and at
temp = 0 numpy divides the logits by zero and the output is NaN, outside
the reach of the exact model. -/
theorem claim2_amended (classes : List String) (prefer : Option String)
    (boost temp : ℝ) (v : List ℝ)
    (hnn : ∀ x ∈ v, 0 ≤ x) (hex : ∃ x ∈ v, 0 < x)
    (_htemp : 0 < temp) (hb : -1 < boost) :
    (postprocessFull classes prefer boost temp v).sum = 1 := by
  have hb' : (0:ℝ) < 1 + boost := by linarith
  have hT : (∀ y ∈ tempStage temp v, 0 ≤ y) ∧ (∃ y ∈ tempStage temp v, 0 < y) := by
    unfold tempStage
    by_cases h1 : temp = 1
    · rw [if_pos h1]; exact ⟨hnn, hex⟩
    · rw [if_neg h1]
      have hwpos : ∀ y ∈ v.map (fun x =>
          Real.exp (Real.log (x + 1 / 1000000000) / temp)), 0 < y := by
        intro y hy
        rcases List.mem_map.mp hy with ⟨x, _, rfl⟩
        exact Real.exp_pos _
      have hwne : v.map (fun x =>
          Real.exp (Real.log (x + 1 / 1000000000) / temp)) ≠ [] := by
        rcases hex with ⟨x, hx, _⟩
        rcases v with _ | ⟨a, t⟩
        · cases hx
        · simp
      rcases List.exists_mem_of_ne_nil _ hwne with ⟨y0, hy0⟩
      have hwsum : 0 < (v.map (fun x =>
          Real.exp (Real.log (x + 1 / 1000000000) / temp))).sum :=
        sum_pos_of_exists_pos _ (fun y hy => (hwpos y hy).le) ⟨y0, hy0, hwpos y0 hy0⟩
      constructor
      · intro y hy
        rcases List.mem_map.mp hy with ⟨x, hx, rfl⟩
        exact div_nonneg (hwpos x hx).le hwsum.le
      · refine ⟨y0 / _, ?_, div_pos (hwpos y0 hy0) hwsum⟩
        exact List.mem_map.mpr ⟨y0, hy0, rfl⟩
  have hB1 : ∀ y ∈ boostOpt classes prefer boost (tempStage temp v), 0 ≤ y :=
    boostOpt_nonneg classes prefer boost _ hb' hT.1
  have hB2 : ∃ y ∈ boostOpt classes prefer boost (tempStage temp v), 0 < y :=
    boostOpt_ex_pos classes prefer boost _ hb' hT.2
  unfold postprocessFull
  exact renorm_sum _ (sum_pos_of_exists_pos _ hB1 hB2).ne'

/-- A concrete run of the amended claim C2: the positive temperature 2 and
boost 1/4 on the vector [1/2, 1/4] give a pipeline output summing to
exactly 1. -/
theorem claim2_witness :
    (postprocessFull ["apple", "fern"] (some "a") ((1:ℝ)/4) 2 [1/2, 1/4]).sum = 1 :=
  claim2_amended ["apple", "fern"] (some "a") (1/4) 2 [1/2, 1/4]
    (by norm_num) ⟨1/2, by norm_num, by norm_num⟩ (by norm_num) (by norm_num)

/- ### Claims about the device protocol client -/

/-- The claim C6 confirmed: the reply classification of lines 182-187 is a
three-way priority: a reply containing the acknowledgment marker is
Acknowledged, otherwise a non-empty reply is UnrecognizedReply, otherwise
the outcome is Silence; the three guard cases are exhaustive and mutually
exclusive, so exactly one branch fires for every reply text. -/
theorem claim6_classification (t : String) :
    (hasAck t = true → classifyReply t = CommandOutcome.Acknowledged t) ∧
    (hasAck t = false → t ≠ "" → classifyReply t = CommandOutcome.UnrecognizedReply t) ∧
    (hasAck t = false → t = "" → classifyReply t = CommandOutcome.Silence) ∧
    (hasAck t = true ∨ (hasAck t = false ∧ t ≠ "") ∨ (hasAck t = false ∧ t = "")) := by
  refine ⟨?_, ?_, ?_, ?_⟩
  · intro h
    simp [classifyReply, h]
  · intro h hne
    simp [classifyReply, h, hne]
  · intro h he
    subst he
    simp [classifyReply, h]
  · cases h : hasAck t with
    | true => exact Or.inl rfl
    | false =>
      by_cases he : t = ""
      · exact Or.inr (Or.inr ⟨rfl, he⟩)
      · exact Or.inr (Or.inl ⟨rfl, he⟩)

/-- A concrete run of the claim C6: the reply "hello" has no marker and is
non-empty, so it is classified as UnrecognizedReply. -/
theorem claim6_witness :
    classifyReply "hello" = CommandOutcome.UnrecognizedReply "hello" :=
  (claim6_classification "hello").2.1 (by decide) (by decide)

/-- The claim C9 as stated is false: decode with errors ignore drops an
undecodable byte instead of inserting a replacement for it.  The single
invalid byte 255 decodes to the empty reply text, which contains no
replacement character at all. -/
theorem claim9_counterexample :
    utf8Ignore [255] = [] ∧ decodeIgnore [255] = "" := by
  have h1 : utf8Ignore [255] = [] := by
    norm_num [utf8Ignore, contB]
  refine ⟨h1, ?_⟩
  unfold decodeIgnore
  rw [h1]
  rfl

/-- The claim C9 amended: decoding never fails on any drained byte list,
and an undecodable byte is simply dropped from the reply text: around any
ASCII context, the invalid byte 255 contributes nothing to the decoded
output. -/
theorem claim9_amended (pre post : List Nat) (h : ∀ b ∈ pre, b ≤ 127) :
    utf8Ignore (pre ++ 255 :: post) = pre ++ utf8Ignore post := by
  induction pre with
  | nil =>
    simp only [List.nil_append]
    rw [utf8Ignore.eq_def]
    norm_num [contB]
  | cons b t ih =>
    have hb : b ≤ 127 := h b (List.mem_cons_self b t)
    have ih' := ih (fun x hx => h x (List.mem_cons_of_mem _ hx))
    simp only [List.cons_append]
    rw [show utf8Ignore (b :: (t ++ 255 :: post)) =
        b :: utf8Ignore (t ++ 255 :: post) from by
      rw [utf8Ignore.eq_def]
      simp [hb]]
    rw [ih']

/-- A concrete run of the amended claim C9: the byte 255 inside an ASCII
reply is dropped and the rest decodes as usual. -/
theorem claim9_witness :
    utf8Ignore [72, 105, 255, 33] = [72, 105] ++ utf8Ignore [33] :=
  claim9_amended [72, 105] [33] (by decide)

/-- The claim C10 confirmed: a reply consisting only of whitespace is
stripped to the empty string by the strip of line 180, so the water handler
reaches the Silence branch of line 187 (reported as done with no serial
response), not the UnrecognizedReply branch. -/
theorem claim10_whitespace (s : String) (h : ∀ c ∈ s.data, isPyWs c = true) :
    waterOutcome s = CommandOutcome.Silence := by
  have hstrip : pyStrip s = "" := by
    unfold pyStrip stripChars
    have h1 : s.data.dropWhile isPyWs = [] :=
      List.dropWhile_eq_nil_iff.mpr h
    rw [h1]
    rfl
  unfold waterOutcome
  rw [hstrip]
  decide

/-- A concrete run of the claim C10: the whitespace-only reply of a space,
a tab and a newline is classified as Silence. -/
theorem claim10_witness : waterOutcome " \t\n" = CommandOutcome.Silence :=
  claim10_whitespace " \t\n" (by decide)

/- ### Claims about the inference skeleton -/

/-- The claim C7 as stated is false for the bot: classify_image has no
dtype error branch, so a model declaring the int8 input dtype (neither
uint8 nor float32) silently runs the float preprocessing path and returns
ordinary predictions instead of failing. -/
theorem claim7_counterexample :
    botClassify ["a", "b"] ⟨224, NpDtype.int8, fun _ => [3/10, 7/10]⟩ ⟨100, 50, 0⟩ =
      (PrepKind.floatNormalized, [("b", 7/10), ("a", 3/10)]) := by
  have hne : NpDtype.int8 ≠ NpDtype.uint8 := by decide
  norm_num [botClassify, resizeTo, hne, topPreds, topK, argsortAsc, IdxLe,
    List.insertionSort, List.orderedInsert, show List.range 2 = [0, 1] from rfl]

/-- The claim C7 amended: for a model whose input dtype is neither uint8
nor float32, the standalone script fails with its unsupported-dtype error
(line 56), while the bot classify_image, which has no such check, silently
takes the float preprocessing path (lines 96-99). -/
theorem claim7_amended (m : ModelHandle) (img : ImageFile)
    (classes : List String)
    (h8 : m.inputDtype ≠ NpDtype.uint8) (h32 : m.inputDtype ≠ NpDtype.float32) :
    scriptInfer m img = Except.error "Unsupported input dtype" ∧
    (botClassify classes m img).1 = PrepKind.floatNormalized := by
  constructor
  · simp [scriptInfer, h8, h32]
  · simp [botClassify, h8]

/-- A concrete run of the amended claim C7 at the float16 dtype. -/
theorem claim7_witness :
    scriptInfer ⟨224, NpDtype.float16, fun _ => []⟩ ⟨10, 20, 3⟩ =
      Except.error "Unsupported input dtype" ∧
    (botClassify [] ⟨224, NpDtype.float16, fun _ => []⟩ ⟨10, 20, 3⟩).1 =
      PrepKind.floatNormalized :=
  claim7_amended ⟨224, NpDtype.float16, fun _ => []⟩ ⟨10, 20, 3⟩ []
    (by decide) (by decide)

/-- The claim C8 as stated is false: an image of spatial dimensions 100 by
50 disagreeing with the declared input size 224 does not make inference
fail; line 42 resizes every image to the declared size first, and the run
succeeds with a full output vector.  No ShapeMismatch failure exists in the
code. -/
theorem claim8_counterexample :
    scriptInfer ⟨224, NpDtype.float32, fun _ => [1/2, 1/2]⟩ ⟨100, 50, 7⟩ =
      Except.ok (PrepKind.floatNormalized, ([1/2, 1/2] : List ℚ)) := by
  simp [scriptInfer, resizeTo]

/-- The claim C8 amended: the decoded image is resized to the declared
square input size before the tensor is built (line 42 of the script, line
84 of the bot), so inference never fails on account of the image spatial
dimensions: for a supported dtype the script succeeds on every image, and
both entry points return the same result as for an image already at the
expected size. -/
theorem claim8_amended (m : ModelHandle) (img : ImageFile)
    (hd : m.inputDtype = NpDtype.uint8 ∨ m.inputDtype = NpDtype.float32) :
    (∃ kind out, scriptInfer m img = Except.ok (kind, out)) ∧
    scriptInfer m img = scriptInfer m (resizeTo m.inputSize img) ∧
    (∀ classes, botClassify classes m img =
      botClassify classes m (resizeTo 224 img)) := by
  refine ⟨?_, ?_, ?_⟩
  · rcases hd with h | h
    · refine ⟨PrepKind.quantized,
        m.run ⟨PrepKind.quantized, m.inputSize, m.inputSize, img.content⟩, ?_⟩
      simp [scriptInfer, resizeTo, h]
    · refine ⟨PrepKind.floatNormalized,
        m.run ⟨PrepKind.floatNormalized, m.inputSize, m.inputSize, img.content⟩, ?_⟩
      simp [scriptInfer, resizeTo, h]
  · simp [scriptInfer, resizeTo]
  · intro classes
    simp [botClassify, resizeTo]

/-- A concrete run of the amended claim C8: a 100 by 50 image succeeds on a
uint8 model of declared size 96. -/
theorem claim8_witness :
    (∃ kind out, scriptInfer ⟨96, NpDtype.uint8, fun _ => [1]⟩ ⟨100, 50, 2⟩ =
      Except.ok (kind, out)) ∧
    scriptInfer ⟨96, NpDtype.uint8, fun _ => [1]⟩ ⟨100, 50, 2⟩ =
      scriptInfer ⟨96, NpDtype.uint8, fun _ => [1]⟩
        (resizeTo 96 ⟨100, 50, 2⟩) ∧
    (∀ classes, botClassify classes ⟨96, NpDtype.uint8, fun _ => [1]⟩ ⟨100, 50, 2⟩ =
      botClassify classes ⟨96, NpDtype.uint8, fun _ => [1]⟩
        (resizeTo 224 ⟨100, 50, 2⟩)) :=
  claim8_amended ⟨96, NpDtype.uint8, fun _ => [1]⟩ ⟨100, 50, 2⟩ (Or.inl rfl)
